import Mathlib

/-!
Shallow embedding of the adaptive object-detection pipeline in
`src/vision/yolo_prediction_fast.py` (capture → inference → smoothing →
adaptive control → overlay compositing), together with theorems checking the
design specification's claims against it.

Conventions of the embedding:
* Python `int` is `ℤ`; Python `float` is `ℚ` (exact rational arithmetic stands
  in for IEEE doubles; none of the properties checked here depends on
  floating-point rounding of the constants involved).
* Python's `int(x)` truncation toward zero is `pyInt`.
* The bounded `queue.Queue` channels are lists with an explicit capacity.
* `collections.deque(maxlen=n)` appending is `pushBounded n`.
* String helpers (`str.split()`, `float(str)`) are implemented by structural
  recursion over the character list so that concrete runs reduce in the
  kernel; they agree with the Python semantics on every string the pipeline
  produces.
-/

/-! ### Global constants from the Settings block -/

def IMG_SIZE : ℤ := 416
def CONF_THRES : ℚ := 0.35
def CAM_RES : ℤ × ℤ := (1280, 720)
def BUFFER_SIZE : ℕ := 3
def FRAME_SKIP : ℤ := 2
def SMOOTHING_FACTOR : ℚ := 0.8

/-! ### Basic helpers -/

/-- Python's `int(q)`: truncation toward zero. -/
def pyInt (q : ℚ) : ℤ := if 0 ≤ q then ⌊q⌋ else ⌈q⌉

/-- Helper for `tokens`: split a character list on whitespace runs,
accumulating the current (reversed) token in `acc`. -/
def wsSplitAux : List Char → List Char → List String
  | [], acc => if acc.isEmpty then [] else [⟨acc.reverse⟩]
  | c :: rest, acc =>
    if c.isWhitespace then
      if acc.isEmpty then wsSplitAux rest []
      else (⟨acc.reverse⟩ : String) :: wsSplitAux rest []
    else wsSplitAux rest (c :: acc)

/-- Python's `str.split()` with no argument: split on runs of whitespace,
dropping empty pieces. -/
def tokens (s : String) : List String := wsSplitAux s.data []

/-- `label.split()[0]` as used by the smoother (labels in the pipeline are
always of the form `"classname conf"`, hence nonempty). -/
def firstToken (s : String) : String := (tokens s).headD ""

/-- `deque(maxlen := n)` append: add at the right, evict from the left when
over capacity. -/
def pushBounded (n : ℕ) (xs : List α) (x : α) : List α :=
  let ys := xs ++ [x]
  ys.drop (ys.length - n)

/-! ### Detections -/

/-- The tuples `(x1, y1, x2, y2, label)` published by the inference stage;
the confidence is encoded in the label string, as in the source
(`f"{names[cls]} {conf:.2f}"`). -/
structure Detection where
  x1 : ℤ
  y1 : ℤ
  x2 : ℤ
  y2 : ℤ
  label : String
deriving DecidableEq

/-! ### Bounded channels (`queue.Queue(maxsize=BUFFER_SIZE)`) -/

/-- The non-blocking publish pattern at `FrameCapture.run` (lines 52-53) and
`YOLOProcessor.run` (lines 105-106): `if not q.full(): q.put(item, block=False)`
on a `queue.Queue(maxsize=cap)`.  A full channel is left unchanged and the new
item is discarded; the `except queue.Full: pass` around it swallows the only
error the put could raise, so nothing is logged and the producer never
blocks. -/
def tryPublish (cap : ℕ) (chan : List α) (item : α) : List α :=
  if chan.length < cap then chan ++ [item] else chan

/-! ### Inference stage (`YOLOProcessor`) -/

/-- The mutable state of `YOLOProcessor` relevant to decimation:
`frame_skip` is fixed by `__init__` and never written afterwards;
`frame_count` starts at 0. -/
structure YOLOProcessorState where
  frame_skip : ℤ
  frame_count : ℤ
deriving DecidableEq

/-- The decimation step of one `YOLOProcessor.run` iteration after a frame is
received: `self.frame_count += 1; if self.frame_count % self.frame_skip != 0:
continue`.  Returns the new state and whether the frame is inferred. -/
def procReceive (p : YOLOProcessorState) : YOLOProcessorState × Bool :=
  let c := p.frame_count + 1
  ({ p with frame_count := c }, c % p.frame_skip == 0)

/-- One raw box of a model result: `b.xyxy[0]` as floats, `b.conf[0]`,
`b.cls[0]`. -/
structure ModelBox where
  x1 : ℚ
  y1 : ℚ
  x2 : ℚ
  y2 : ℚ
  conf : ℚ
  cls : ℕ
deriving DecidableEq

/-- Python `f"{q:.2f}"` for the nonnegative confidences occurring here:
two decimal places (exact rational rounding stands in for the binary float
rounding of the source). -/
def fmt2 (q : ℚ) : String :=
  let n := (⌊q * 100 + 1/2⌋).toNat
  let frac := n % 100
  toString (n / 100) ++ "." ++ (if frac < 10 then "0" else "") ++ toString frac

/-- The result-processing loop of `YOLOProcessor.run` (lines 90-102): each box
with `conf >= self.conf_thres` is appended as
`(int(x1), int(y1), int(x2), int(y2), f"{names[cls]} {conf:.2f}")`.
No clamping of the coordinates to the frame bounds is performed. -/
def processResults (names : ℕ → String) (conf_thres : ℚ) (boxes : List ModelBox) :
    List Detection :=
  boxes.filterMap fun b =>
    if conf_thres ≤ b.conf then
      some ⟨pyInt b.x1, pyInt b.y1, pyInt b.x2, pyInt b.y2,
            names b.cls ++ " " ++ fmt2 b.conf⟩
    else none

/-! ### Detection smoother (`DetectionSmoother`) -/

/-- The similarity test of `smooth_detections` (lines 142-143):
`label.split()[0] == hlabel.split()[0] and abs(x1 - hx1) < 50 and
abs(y1 - hy1) < 50`, where `d` is the current detection and `h` the
historical one. -/
def similarDet (d h : Detection) : Bool :=
  (firstToken d.label == firstToken h.label)
    && decide ((d.x1 - h.x1).natAbs < 50)
    && decide ((d.y1 - h.y1).natAbs < 50)

structure DetectionSmoother where
  smoothing_factor : ℚ
  max_history : ℕ
  detection_history : List (List Detection)
deriving DecidableEq

/-- The per-detection body of `smooth_detections` (lines 133-161): gather all
similar detections across the history (which already includes the current
set), average their coordinates, and blend
`int(x * (1 - factor) + avg * factor)`; an empty similar list passes `d`
through. -/
def smoothOne (sf : ℚ) (hist : List (List Detection)) (d : Detection) : Detection :=
  let similar := (hist.map fun hd => hd.filter fun h => similarDet d h).flatten
  if similar.isEmpty then d
  else
    let n : ℚ := similar.length
    let avg_x1 := (similar.map fun h => (h.x1 : ℚ)).sum / n
    let avg_y1 := (similar.map fun h => (h.y1 : ℚ)).sum / n
    let avg_x2 := (similar.map fun h => (h.x2 : ℚ)).sum / n
    let avg_y2 := (similar.map fun h => (h.y2 : ℚ)).sum / n
    { x1 := pyInt ((d.x1 : ℚ) * (1 - sf) + avg_x1 * sf)
      y1 := pyInt ((d.y1 : ℚ) * (1 - sf) + avg_y1 * sf)
      x2 := pyInt ((d.x2 : ℚ) * (1 - sf) + avg_x2 * sf)
      y2 := pyInt ((d.y2 : ℚ) * (1 - sf) + avg_y2 * sf)
      label := d.label }

/-- `DetectionSmoother.smooth_detections`: append the current set to the
bounded history, return it unchanged while fewer than 2 sets are stored, and
otherwise smooth each current detection. Returns the smoothed list and the
updated smoother. -/
def smooth_detections (s : DetectionSmoother) (current : List Detection) :
    List Detection × DetectionSmoother :=
  let hist := pushBounded s.max_history s.detection_history current
  let s' := { s with detection_history := hist }
  if hist.length < 2 then (current, s')
  else (current.map (smoothOne s.smoothing_factor hist), s')

/-- The smoother as constructed in `main`:
`DetectionSmoother(smoothing_factor=SMOOTHING_FACTOR)` with the default
`max_history=5` and empty history. -/
def mainSmoother : DetectionSmoother :=
  { smoothing_factor := SMOOTHING_FACTOR, max_history := 5, detection_history := [] }

/-- Smoother state after `n` calls of `smooth_detections` on the constant
stream `D`, starting from `main`'s freshly constructed smoother. -/
def iterSmooth (D : List Detection) : ℕ → DetectionSmoother
  | 0 => mainSmoother
  | n + 1 => (smooth_detections (iterSmooth D n) D).2

/-! ### Performance adaptor (`PerformanceAdaptor`) -/

structure PerformanceAdaptor where
  target_fps : ℚ
  adjustment_interval : ℚ
  last_adjustment : ℚ
  fps_history : List ℚ
  current_skip : ℤ
  current_img_size : ℤ
deriving DecidableEq

/-- `PerformanceAdaptor.__init__` (defaults `target_fps=15`,
`adjustment_interval=3.0`); `t0` is the construction-time value of
`time.time()`. -/
def mkAdaptor (target_fps adjustment_interval t0 : ℚ) : PerformanceAdaptor :=
  { target_fps, adjustment_interval, last_adjustment := t0, fps_history := [],
    current_skip := FRAME_SKIP, current_img_size := IMG_SIZE }

/-- `PerformanceAdaptor.update_performance(fps)` with the current clock value
`now` passed explicitly.  Appends `fps` to the bounded (maxlen 8) window and,
when at least `adjustment_interval` has elapsed and at least 5 samples are
stored, adjusts one knob according to the average fps and resets
`last_adjustment` (also on a no-op evaluation). -/
def update_performance (a : PerformanceAdaptor) (fps now : ℚ) : PerformanceAdaptor :=
  let hist := pushBounded 8 a.fps_history fps
  if a.adjustment_interval ≤ now - a.last_adjustment ∧ 5 ≤ hist.length then
    let avg := hist.sum / (hist.length : ℚ)
    if avg < a.target_fps * 0.8 then
      if a.current_skip < 4 then
        { a with fps_history := hist, current_skip := a.current_skip + 1,
                 last_adjustment := now }
      else if 320 < a.current_img_size then
        { a with fps_history := hist,
                 current_img_size := max 320 (a.current_img_size - 96),
                 last_adjustment := now }
      else
        { a with fps_history := hist, last_adjustment := now }
    else if a.target_fps * 1.3 < avg then
      if 1 < a.current_skip then
        { a with fps_history := hist, current_skip := a.current_skip - 1,
                 last_adjustment := now }
      else if a.current_img_size < IMG_SIZE then
        { a with fps_history := hist,
                 current_img_size := min IMG_SIZE (a.current_img_size + 96),
                 last_adjustment := now }
      else
        { a with fps_history := hist, last_adjustment := now }
    else
      { a with fps_history := hist, last_adjustment := now }
  else
    { a with fps_history := hist }

/-- Fold `update_performance` over a list of `(fps, now)` observations. -/
def runAdaptor (a : PerformanceAdaptor) (inputs : List (ℚ × ℚ)) : PerformanceAdaptor :=
  inputs.foldl (fun s p => update_performance s p.1 p.2) a

/-! ### Overlay compositor (`make_overlay`) -/

/-- Digit list to number, most significant first. -/
def digitsToNat (cs : List Char) : ℕ :=
  cs.foldl (fun n c => 10 * n + (c.toNat - 48)) 0

/-- Split a character list at the first `'.'`, if any. -/
def splitDot : List Char → List Char × Option (List Char)
  | [] => ([], none)
  | '.' :: rest => ([], some rest)
  | c :: rest => let (i, f) := splitDot rest; (c :: i, f)

/-- Modelled Python `float(str)` restricted to decimal literals: optional
surrounding whitespace, optional sign, digits with at most one `'.'` and at
least one digit; anything else is a `ValueError` (`none`).  The exponent /
`inf` / `nan` forms accepted by Python never arise from the pipeline's
labels. -/
def parseFloat (s : String) : Option ℚ :=
  let cs := ((s.data.dropWhile Char.isWhitespace).reverse.dropWhile
    Char.isWhitespace).reverse
  let signed : ℚ × List Char :=
    match cs with
    | '-' :: rest => (-1, rest)
    | '+' :: rest => (1, rest)
    | _ => (1, cs)
  let body := signed.2
  let parts := splitDot body
  let ip := parts.1
  match parts.2 with
  | none =>
      if !ip.isEmpty && ip.all Char.isDigit then
        some (signed.1 * digitsToNat ip)
      else none
  | some fp =>
      if (!ip.isEmpty || !fp.isEmpty) && ip.all Char.isDigit
          && fp.all Char.isDigit then
        some (signed.1 * ((digitsToNat ip : ℚ)
          + (digitsToNat fp : ℚ) / (10 : ℚ) ^ fp.length))
      else none

/-- The secondary confidence filter of `make_overlay` (lines 212-220): when
the label has more than one token and its last token parses as a float below
0.5, the detection is skipped; a single token or a `ValueError` falls through
to drawing. -/
def confFilterSkips (label : String) : Bool :=
  let parts := tokens label
  if parts.length > 1 then
    match parseFloat ((parts.getLast?).getD "") with
    | some conf => decide (conf < 0.5)
    | none => false
  else false

/-- `(x2 - x1) * (y2 - y1)` from line 226. -/
def boxArea (d : Detection) : ℤ := (d.x2 - d.x1) * (d.y2 - d.y1)

/-- `make_overlay(size_wh, dets, fps)`, modelled by the detections it draws:
the first component lists the detections drawn as outlined rectangles (in
order), the second those whose label text is drawn as well
(`box_area > 2000`, line 227).  The FPS readout and the pixel-level drawing
are outside the model. -/
def make_overlay (dets : List Detection) : List Detection × List Detection :=
  let drawn := dets.filter fun d => !confFilterSkips d.label
  (drawn, drawn.filter fun d => decide (2000 < boxArea d))

/-! ### Orchestrator wiring (`main`) relevant to the adaptor feedback -/

/-- The pieces of `main`'s mutable state that the decimation claims concern:
the processor thread's state and the adaptor. -/
structure MainState where
  proc : YOLOProcessorState
  adaptor : PerformanceAdaptor
deriving DecidableEq

/-- `main`'s construction: `YOLOProcessor(..., FRAME_SKIP)` (frame counter 0)
and `PerformanceAdaptor(target_fps=12)` (default interval 3.0) constructed at
clock value `t0`. -/
def mainInit (t0 : ℚ) : MainState :=
  { proc := { frame_skip := FRAME_SKIP, frame_count := 0 },
    adaptor := mkAdaptor 12 3 t0 }

/-- The 1-second FPS tick in `main`'s loop: `current_skip, current_img_size =
adaptor.update_performance(shown_fps)`.  The returned values are bound to
local variables that are never written back to `processor_thread`, so only
the adaptor's own state changes. -/
def fpsTick (s : MainState) (fps now : ℚ) : MainState :=
  { s with adaptor := update_performance s.adaptor fps now }

/-- Fold `fpsTick` over a list of `(fps, now)` observations. -/
def runTicks (s : MainState) (ticks : List (ℚ × ℚ)) : MainState :=
  ticks.foldl (fun st t => fpsTick st t.1 t.2) s

/-- Deliver `n` frames to the inference stage, collecting for each whether it
is inferred rather than skipped. -/
def runFrames (s : MainState) : ℕ → MainState × List Bool
  | 0 => (s, [])
  | n + 1 =>
    let pb := procReceive s.proc
    let rest := runFrames { s with proc := pb.1 } n
    (rest.1, pb.2 :: rest.2)

/-! ### Spec-side predicates and concrete scenario states -/

/-- The spec's re-evaluation gate for the adaptor: at least `adjustment_interval`
elapsed since the last adjustment AND at least 5 samples in the (just appended)
window. -/
def adaptGate (a : PerformanceAdaptor) (fps now : ℚ) : Prop :=
  a.adjustment_interval ≤ now - a.last_adjustment ∧
    5 ≤ (pushBounded 8 a.fps_history fps).length

/-- The spec's description of the overlay's secondary confidence filter: the
label's trailing whitespace-separated token parses as a float below 0.5 (and
there is more than one token, so a trailing token distinct from the class name
exists). -/
def lowConfLabel (label : String) : Prop :=
  1 < (tokens label).length ∧
    ∃ q : ℚ, parseFloat (((tokens label).getLast?).getD "") = some q ∧ q < 0.5

/-- Class-name lookup used in the concrete scenarios. -/
def names0 : ℕ → String := fun _ => "person"

/-- Adaptor mid-run: target 12, interval 3, last adjustment at t=0, four
3.0-fps samples already in the window, knobs at their initial values. -/
def lowFpsAdaptor : PerformanceAdaptor :=
  { target_fps := 12, adjustment_interval := 3, last_adjustment := 0,
    fps_history := [3, 3, 3, 3], current_skip := 2, current_img_size := 416 }

/-- Adaptor mid-run in the improve direction: target 12, interval 3, last
adjustment at t=0, four 20-fps samples already in the window, decimation
still above its floor. -/
def highFpsAdaptor : PerformanceAdaptor :=
  { target_fps := 12, adjustment_interval := 3, last_adjustment := 0,
    fps_history := [20, 20, 20, 20], current_skip := 2, current_img_size := 416 }

/-- `main`'s state after five 1-second FPS ticks of 3.0 fps (at t = 1..4 and
t = 10): the fifth tick meets the adaptor's gate and raises its decimation
factor. -/
def c1State : MainState :=
  runTicks (mainInit 0) [(3, 1), (3, 2), (3, 3), (3, 4), (3, 10)]

/-- Four frames delivered to the inference stage after the adaptor has raised
its decimation factor. -/
def c1Frames : MainState × List Bool := runFrames c1State 4

/-- A single detection, dissimilar only to nothing but itself. -/
def stableDets : List Detection := [⟨0, 0, 10, 10, "person 0.90"⟩]

/-- Two same-class detections 40px apart: mutually "similar" for the
smoother, hence permanently blended under a constant stream. -/
def driftDets : List Detection :=
  [⟨0, 0, 10, 10, "person 0.90"⟩, ⟨40, 0, 50, 10, "person 0.90"⟩]

/-- Current and historical detections whose class labels differ but share
their first word ("baseball bat" vs "baseball glove"). -/
def batDet : Detection := ⟨0, 0, 10, 10, "baseball bat 0.90"⟩

def gloveDet : Detection := ⟨30, 30, 40, 40, "baseball glove 0.85"⟩

/-! ### Helper lemmas -/

lemma pyInt_intCast (m : ℤ) : pyInt (m : ℚ) = m := by
  unfold pyInt
  split_ifs <;> simp

lemma pyInt_of_nonneg {q : ℚ} (h : 0 ≤ q) : pyInt q = ⌊q⌋ := if_pos h

lemma update_performance_knobs (a : PerformanceAdaptor) (fps now : ℚ)
    (h1 : 1 ≤ a.current_skip) (h2 : a.current_skip ≤ 4)
    (h3 : a.current_img_size = 320 ∨ a.current_img_size = 416) :
    1 ≤ (update_performance a fps now).current_skip ∧
      (update_performance a fps now).current_skip ≤ 4 ∧
      ((update_performance a fps now).current_img_size = 320 ∨
        (update_performance a fps now).current_img_size = 416) := by
  simp only [update_performance]
  split_ifs <;> rcases h3 with h3 | h3 <;> simp_all [IMG_SIZE] <;> omega

lemma runAdaptor_knobs (inputs : List (ℚ × ℚ)) :
    ∀ a : PerformanceAdaptor, 1 ≤ a.current_skip → a.current_skip ≤ 4 →
      (a.current_img_size = 320 ∨ a.current_img_size = 416) →
      1 ≤ (runAdaptor a inputs).current_skip ∧
        (runAdaptor a inputs).current_skip ≤ 4 ∧
        ((runAdaptor a inputs).current_img_size = 320 ∨
          (runAdaptor a inputs).current_img_size = 416) := by
  induction inputs with
  | nil => exact fun a h1 h2 h3 => ⟨h1, h2, h3⟩
  | cons p t ih =>
    intro a h1 h2 h3
    have h := update_performance_knobs a p.1 p.2 h1 h2 h3
    exact ih _ h.1 h.2.1 h.2.2

/-! ### Theorems for the claims -/

/-- C8: a publish attempted by the capture stage (frame channel) or the
inference stage (result channel) while the channel holds `BUFFER_SIZE` items
is a no-op that leaves the channel unchanged and discards the new item, and a
publish never grows a channel beyond its capacity.  `tryPublish` is total, so
no error escapes, and it returns immediately, so the producer never blocks. -/
theorem channel_publish_drop_on_full {α : Type} (chan : List α) (item : α) :
    (BUFFER_SIZE ≤ chan.length → tryPublish BUFFER_SIZE chan item = chan) ∧
    (chan.length ≤ BUFFER_SIZE →
      (tryPublish BUFFER_SIZE chan item).length ≤ BUFFER_SIZE) := by
  constructor
  · intro h
    simp [tryPublish, Nat.not_lt.2 h]
  · intro h
    unfold tryPublish
    split_ifs with hl
    · simp only [List.length_append, List.length_cons, List.length_nil]
      omega
    · exact h

/-- C8 witness: at capacity 3, publishing to a full channel returns it
unchanged; publishing to a channel of 2 respects the capacity bound. -/
theorem channel_publish_drop_on_full_witness :
    tryPublish BUFFER_SIZE [0, 1, 2] (9 : ℕ) = [0, 1, 2] ∧
    (tryPublish BUFFER_SIZE [0, 1] (9 : ℕ)).length ≤ BUFFER_SIZE :=
  ⟨(channel_publish_drop_on_full [0, 1, 2] 9).1 (by decide),
   (channel_publish_drop_on_full [0, 1] 9).2 (by decide)⟩

/-- C5: over every sequence of `update_performance` calls from the initial
state, the decimation factor stays in [1, 4] and the inference resolution
stays in {320, 416} ⊆ [320, IMG_SIZE]; moreover any single call moves the
resolution by exactly 0 or ±96 whenever it starts in {320, 416}, so the
resolution moves only in fixed steps of 96. -/
theorem adaptor_knob_invariants (target interval t0 : ℚ) (inputs : List (ℚ × ℚ)) :
    (1 ≤ (runAdaptor (mkAdaptor target interval t0) inputs).current_skip ∧
      (runAdaptor (mkAdaptor target interval t0) inputs).current_skip ≤ 4 ∧
      ((runAdaptor (mkAdaptor target interval t0) inputs).current_img_size = 320 ∨
        (runAdaptor (mkAdaptor target interval t0) inputs).current_img_size = 416)) ∧
    (∀ (a : PerformanceAdaptor) (fps now : ℚ),
      a.current_img_size = 320 ∨ a.current_img_size = 416 →
      (update_performance a fps now).current_img_size = a.current_img_size ∨
      (update_performance a fps now).current_img_size = a.current_img_size - 96 ∨
      (update_performance a fps now).current_img_size = a.current_img_size + 96) := by
  constructor
  · exact runAdaptor_knobs inputs (mkAdaptor target interval t0)
      (by simp [mkAdaptor, FRAME_SKIP]) (by simp [mkAdaptor, FRAME_SKIP])
      (Or.inr rfl)
  · intro a fps now h3
    simp only [update_performance]
    split_ifs <;> rcases h3 with h3 | h3 <;> simp_all [IMG_SIZE]

/-- C5 witness: the invariant at a concrete run, and a concrete step moves the
resolution by 0 or ±96. -/
theorem adaptor_knob_invariants_witness :
    (1 ≤ (runAdaptor (mkAdaptor 12 3 0) [(3, 1), (20, 2)]).current_skip ∧
      (runAdaptor (mkAdaptor 12 3 0) [(3, 1), (20, 2)]).current_skip ≤ 4 ∧
      ((runAdaptor (mkAdaptor 12 3 0) [(3, 1), (20, 2)]).current_img_size = 320 ∨
        (runAdaptor (mkAdaptor 12 3 0) [(3, 1), (20, 2)]).current_img_size = 416)) ∧
    ((update_performance lowFpsAdaptor 3 10).current_img_size =
        lowFpsAdaptor.current_img_size ∨
      (update_performance lowFpsAdaptor 3 10).current_img_size =
        lowFpsAdaptor.current_img_size - 96 ∨
      (update_performance lowFpsAdaptor 3 10).current_img_size =
        lowFpsAdaptor.current_img_size + 96) :=
  ⟨(adaptor_knob_invariants 12 3 0 [(3, 1), (20, 2)]).1,
   (adaptor_knob_invariants 12 3 0 []).2 lowFpsAdaptor 3 10 (Or.inr rfl)⟩

/-- C6: when the just-appended sample window holds at least 5 samples whose
average is 3.0 fps, the target is 12 fps, the adjustment interval has elapsed
and the decimation factor is below its cap 4, `update_performance` increments
the decimation factor by exactly 1 and leaves the resolution unchanged
(part 1); in general no single call changes both knobs (part 2); and
decimation takes priority over resolution in both directions: whenever the
gate is met and the average is below `target * 0.8` with the decimation
factor below its cap, only the decimation factor moves (up by 1, part 3), and
whenever the gate is met and the average is above `target * 1.3` (target
nonnegative) with the decimation factor above its floor 1, only the
decimation factor moves (down by 1, part 4) — the resolution is touched only
when decimation is already at the respective bound. -/
theorem adaptor_low_fps_increments_skip :
    (∀ (a : PerformanceAdaptor) (fps now : ℚ),
      a.target_fps = 12 →
      a.adjustment_interval ≤ now - a.last_adjustment →
      5 ≤ (pushBounded 8 a.fps_history fps).length →
      (pushBounded 8 a.fps_history fps).sum /
          ((pushBounded 8 a.fps_history fps).length : ℚ) = 3 →
      a.current_skip < 4 →
      (update_performance a fps now).current_skip = a.current_skip + 1 ∧
        (update_performance a fps now).current_img_size = a.current_img_size) ∧
    (∀ (a : PerformanceAdaptor) (fps now : ℚ),
      (update_performance a fps now).current_skip = a.current_skip ∨
      (update_performance a fps now).current_img_size = a.current_img_size) ∧
    (∀ (a : PerformanceAdaptor) (fps now : ℚ),
      a.adjustment_interval ≤ now - a.last_adjustment →
      5 ≤ (pushBounded 8 a.fps_history fps).length →
      (pushBounded 8 a.fps_history fps).sum /
          ((pushBounded 8 a.fps_history fps).length : ℚ) < a.target_fps * 0.8 →
      a.current_skip < 4 →
      (update_performance a fps now).current_skip = a.current_skip + 1 ∧
        (update_performance a fps now).current_img_size = a.current_img_size) ∧
    (∀ (a : PerformanceAdaptor) (fps now : ℚ),
      0 ≤ a.target_fps →
      a.adjustment_interval ≤ now - a.last_adjustment →
      5 ≤ (pushBounded 8 a.fps_history fps).length →
      a.target_fps * 1.3 <
        (pushBounded 8 a.fps_history fps).sum /
          ((pushBounded 8 a.fps_history fps).length : ℚ) →
      1 < a.current_skip →
      (update_performance a fps now).current_skip = a.current_skip - 1 ∧
        (update_performance a fps now).current_img_size = a.current_img_size) := by
  refine ⟨?_, ?_, ?_, ?_⟩
  · intro a fps now htarget hint hlen havg hskip
    simp only [update_performance]
    rw [if_pos ⟨hint, hlen⟩, havg, htarget,
      if_pos (by norm_num : (3 : ℚ) < 12 * 0.8), if_pos hskip]
    exact ⟨rfl, rfl⟩
  · intro a fps now
    simp only [update_performance]
    split_ifs <;> simp
  · intro a fps now hint hlen havg hskip
    simp only [update_performance]
    rw [if_pos ⟨hint, hlen⟩, if_pos havg, if_pos hskip]
    exact ⟨rfl, rfl⟩
  · intro a fps now htarget0 hint hlen havg hskip
    have hlow : ¬ ((pushBounded 8 a.fps_history fps).sum /
        ((pushBounded 8 a.fps_history fps).length : ℚ) < a.target_fps * 0.8) := by
      intro h
      have h08 : a.target_fps * 0.8 ≤ a.target_fps * 1.3 :=
        mul_le_mul_of_nonneg_left (by norm_num) htarget0
      linarith
    simp only [update_performance]
    rw [if_pos ⟨hint, hlen⟩, if_neg hlow, if_pos havg, if_pos hskip]
    exact ⟨rfl, rfl⟩

/-- C6 witness: a concrete adaptor at 3.0 fps average, target 12, gate met,
skip 2 < 4: the call yields skip 3 and resolution 416 (parts 1 and 3); and a
concrete adaptor at 20 fps average, target 12, gate met, skip 2 > 1: the call
yields skip 1 and resolution 416 (part 4). -/
theorem adaptor_low_fps_increments_skip_witness :
    ((update_performance lowFpsAdaptor 3 10).current_skip =
        lowFpsAdaptor.current_skip + 1 ∧
      (update_performance lowFpsAdaptor 3 10).current_img_size =
        lowFpsAdaptor.current_img_size) ∧
    ((update_performance highFpsAdaptor 20 10).current_skip =
        highFpsAdaptor.current_skip - 1 ∧
      (update_performance highFpsAdaptor 20 10).current_img_size =
        highFpsAdaptor.current_img_size) :=
  ⟨adaptor_low_fps_increments_skip.1 lowFpsAdaptor 3 10 rfl
     (by with_unfolding_all decide) (by with_unfolding_all decide)
     (by with_unfolding_all decide) (by with_unfolding_all decide),
   adaptor_low_fps_increments_skip.2.2.2 highFpsAdaptor 20 10
     (by with_unfolding_all decide) (by with_unfolding_all decide)
     (by with_unfolding_all decide) (by with_unfolding_all decide)
     (by with_unfolding_all decide)⟩

/-- C7: `update_performance` always appends the fps sample to the window; when
the gate (≥ `adjustment_interval` elapsed AND ≥ 5 samples) is not met, the
state is otherwise unchanged (knobs and timestamp); when the gate is met, the
last-adjustment timestamp is reset to `now` even if the average lies in the
dead band; and the knobs change only if the gate was met. -/
theorem adaptor_gate_semantics (a : PerformanceAdaptor) (fps now : ℚ) :
    (update_performance a fps now).fps_history = pushBounded 8 a.fps_history fps ∧
    (¬ adaptGate a fps now →
      update_performance a fps now =
        { a with fps_history := pushBounded 8 a.fps_history fps }) ∧
    (adaptGate a fps now → (update_performance a fps now).last_adjustment = now) ∧
    ((update_performance a fps now).current_skip ≠ a.current_skip ∨
      (update_performance a fps now).current_img_size ≠ a.current_img_size →
      adaptGate a fps now) := by
  unfold adaptGate
  simp only [update_performance]
  split_ifs with hg h1 h2 h3 h4 h5 h6 <;>
    first
    | exact ⟨rfl, fun h => absurd hg h, fun _ => rfl, fun _ => hg⟩
    | exact ⟨rfl, fun _ => rfl, fun h => absurd h hg,
        fun h => by rcases h with h | h <;> exact absurd rfl h⟩

/-- C7 witness: with only one sample the gate is unmet and the knobs and
timestamp are unchanged (sample still appended); with 5 samples and 10s
elapsed the gate is met and the timestamp resets, here on a knob-changing
evaluation. -/
theorem adaptor_gate_semantics_witness :
    (update_performance (mkAdaptor 12 3 0) 3 1).fps_history =
        pushBounded 8 (mkAdaptor 12 3 0).fps_history 3 ∧
    update_performance (mkAdaptor 12 3 0) 3 1 =
      { mkAdaptor 12 3 0 with
          fps_history := pushBounded 8 (mkAdaptor 12 3 0).fps_history 3 } ∧
    (update_performance lowFpsAdaptor 3 10).last_adjustment = 10 :=
  ⟨(adaptor_gate_semantics (mkAdaptor 12 3 0) 3 1).1,
   (adaptor_gate_semantics (mkAdaptor 12 3 0) 3 1).2.1
     (by unfold adaptGate; with_unfolding_all decide),
   (adaptor_gate_semantics lowFpsAdaptor 3 10).2.2.1
     (by unfold adaptGate; with_unfolding_all decide)⟩

lemma confFilterSkips_iff (label : String) :
    confFilterSkips label = true ↔ lowConfLabel label := by
  unfold confFilterSkips lowConfLabel
  by_cases hlen : (tokens label).length > 1
  · rw [if_pos hlen]
    cases hpf : parseFloat (((tokens label).getLast?).getD "") with
    | none => simp [hpf, hlen]
    | some q => simp [hpf, hlen]
  · rw [if_neg hlen]
    simp [hlen]

/-- C10: the overlay's secondary confidence filter fails open: a detection
whose label is a single token, or whose last token does not parse as a float,
is never skipped; its rectangle is drawn (text remains subject only to the
area rule, since the text-drawn list is a further filter of the rectangle
list by `2000 < boxArea` alone). -/
theorem overlay_filter_fails_open (dets : List Detection) (d : Detection)
    (hd : d ∈ dets)
    (h : (tokens d.label).length ≤ 1 ∨
      parseFloat (((tokens d.label).getLast?).getD "") = none) :
    d ∈ (make_overlay dets).1 := by
  have hskip : confFilterSkips d.label = false := by
    unfold confFilterSkips
    rcases h with h | h
    · rw [if_neg (by omega)]
    · by_cases hlen : (tokens d.label).length > 1
      · rw [if_pos hlen]
        simp [h]
      · rw [if_neg hlen]
  simp [make_overlay, List.mem_filter, hskip, hd]

/-- C10 witness: a bare label "person" (single token) and a label
"score n/a" (unparsable last token) both get their rectangles drawn. -/
theorem overlay_filter_fails_open_witness :
    (⟨0, 0, 5, 5, "person"⟩ : Detection) ∈
      (make_overlay [⟨0, 0, 5, 5, "person"⟩, ⟨1, 1, 6, 6, "score n/a"⟩]).1 ∧
    (⟨1, 1, 6, 6, "score n/a"⟩ : Detection) ∈
      (make_overlay [⟨0, 0, 5, 5, "person"⟩, ⟨1, 1, 6, 6, "score n/a"⟩]).1 :=
  ⟨overlay_filter_fails_open _ _ (by with_unfolding_all decide)
     (Or.inl (by with_unfolding_all decide)),
   overlay_filter_fails_open _ _ (by with_unfolding_all decide)
     (Or.inr (by with_unfolding_all decide))⟩

/-- C9 (amended): a detection whose label has more than one token and whose
trailing token parses to a float below 0.5 is drawn neither as a rectangle
nor as a text label; every other detection is drawn as a rectangle, and its
label text is drawn iff its box area exceeds 2000 px².  (The original claim,
quantifying over every label whose trailing token parses below 0.5, fails on
single-token labels; see the counterexample.) -/
theorem overlay_conf_and_area_filters (dets : List Detection) (d : Detection)
    (hd : d ∈ dets) :
    (lowConfLabel d.label →
      d ∉ (make_overlay dets).1 ∧ d ∉ (make_overlay dets).2) ∧
    (¬ lowConfLabel d.label →
      d ∈ (make_overlay dets).1 ∧
        (d ∈ (make_overlay dets).2 ↔ 2000 < boxArea d)) := by
  constructor
  · intro hl
    have hskip : confFilterSkips d.label = true := (confFilterSkips_iff _).2 hl
    exact ⟨by simp [make_overlay, List.mem_filter, hskip],
           by simp [make_overlay, List.mem_filter, hskip]⟩
  · intro hl
    have hskip : confFilterSkips d.label = false :=
      Bool.eq_false_iff.2 fun h => hl ((confFilterSkips_iff _).1 h)
    exact ⟨by simp [make_overlay, List.mem_filter, hskip, hd],
           by simp [make_overlay, List.mem_filter, hskip, hd]⟩

/-- C9 witness: "person 0.30" (trailing token 0.30 < 0.5) is dropped
entirely; "person 0.90" with a 100×100 box is drawn with its text
(area 10000 > 2000). -/
theorem overlay_conf_and_area_filters_witness :
    ((⟨0, 0, 100, 100, "person 0.30"⟩ : Detection) ∉
      (make_overlay [⟨0, 0, 100, 100, "person 0.30"⟩,
        ⟨0, 0, 100, 100, "person 0.90"⟩]).1) ∧
    ((⟨0, 0, 100, 100, "person 0.90"⟩ : Detection) ∈
      (make_overlay [⟨0, 0, 100, 100, "person 0.30"⟩,
        ⟨0, 0, 100, 100, "person 0.90"⟩]).2) :=
  ⟨((overlay_conf_and_area_filters _ _ (by with_unfolding_all decide)).1
      ⟨by with_unfolding_all decide,
       3/10, by with_unfolding_all decide, by with_unfolding_all decide⟩).1,
   (((overlay_conf_and_area_filters _ _ (by with_unfolding_all decide)).2
      (fun hl => absurd ((confFilterSkips_iff _).2 hl)
        (by with_unfolding_all decide))).2).2
     (by with_unfolding_all decide)⟩

/-- C9 counterexample: the claim as stated fails on a single-token label.
The label "0.3" has a trailing token that parses to 0.3 < 0.5, yet
`make_overlay` draws its rectangle (the `len(parts) > 1` guard skips the
confidence check entirely). -/
theorem single_token_low_conf_still_drawn :
    parseFloat (((tokens "0.3").getLast?).getD "") = some (3/10) ∧
    ((3 : ℚ)/10 < 0.5) ∧
    (⟨0, 0, 10, 10, "0.3"⟩ : Detection) ∈
      (make_overlay [⟨0, 0, 10, 10, "0.3"⟩]).1 := by
  with_unfolding_all decide

/-- C1 (code bug): the decimation factor actually used by the inference stage
is the one fixed at construction (`FRAME_SKIP = 2`), not the adaptor's current
one.  After five 3.0-fps ticks (target 12) the adaptor's factor is 3, yet the
2nd and 4th delivered frames are still inferred (counter multiples of 2),
although 2 % 3 ≠ 0 and 4 % 3 ≠ 0 — under the claim they would be skipped.
`main` never writes `update_performance`'s results back into
`processor_thread.frame_skip`. -/
theorem decimation_ignores_adaptor :
    c1State.adaptor.current_skip = 3 ∧
    c1Frames.1.proc.frame_skip = FRAME_SKIP ∧
    c1Frames.2 = [false, true, false, true] ∧
    ¬ ((2 : ℤ) % c1State.adaptor.current_skip = 0) ∧
    ¬ ((4 : ℤ) % c1State.adaptor.current_skip = 0) := by
  with_unfolding_all decide

/-- C2 counterexample: a model box with raw coordinates
(-26/5, -37/10, 2000.5, 800.25) and confidence 0.9 is published as
(-5, -3, 2000, 800) — `processResults` performs no clamping, so the published
x1 is negative and the published x2 is not below the 1280-pixel frame
width. -/
theorem published_detection_out_of_bounds :
    (processResults names0 CONF_THRES
        [⟨-26/5, -37/10, 2000.5, 800.25, 0.9, 0⟩]).map
        (fun d => (d.x1, d.y1, d.x2, d.y2)) = [(-5, -3, 2000, 800)] ∧
    ¬ (0 ≤ (-5 : ℤ)) ∧ ¬ ((2000 : ℤ) < CAM_RES.1) := by
  with_unfolding_all decide

/-- C2 (amended): the inference stage publishes the int-truncated model
coordinates unchanged, with no clamping; hence the claimed bounds
0 ≤ x1 ≤ x2 < W, 0 ≤ y1 ≤ y2 < H hold for every published detection exactly
when the model's raw outputs already satisfy them. -/
theorem published_bounds_need_model_bounds
    (names : ℕ → String) (thres : ℚ) (W H : ℤ) (boxes : List ModelBox)
    (hb : ∀ b ∈ boxes, 0 ≤ b.x1 ∧ b.x1 ≤ b.x2 ∧ b.x2 < (W : ℚ) ∧
      0 ≤ b.y1 ∧ b.y1 ≤ b.y2 ∧ b.y2 < (H : ℚ)) :
    ∀ d ∈ processResults names thres boxes,
      0 ≤ d.x1 ∧ d.x1 ≤ d.x2 ∧ d.x2 < W ∧
        0 ≤ d.y1 ∧ d.y1 ≤ d.y2 ∧ d.y2 < H := by
  intro d hd
  obtain ⟨b, hbmem, hbd⟩ := List.mem_filterMap.1 hd
  obtain ⟨hx1, hx12, hx2, hy1, hy12, hy2⟩ := hb b hbmem
  split_ifs at hbd with hconf
  cases Option.some_inj.1 hbd
  refine ⟨?_, ?_, ?_, ?_, ?_, ?_⟩ <;>
    simp only [pyInt_of_nonneg hx1, pyInt_of_nonneg (hx1.trans hx12),
      pyInt_of_nonneg hy1, pyInt_of_nonneg (hy1.trans hy12)]
  · exact Int.floor_nonneg.2 hx1
  · exact Int.floor_le_floor hx12
  · exact Int.floor_lt.2 hx2
  · exact Int.floor_nonneg.2 hy1
  · exact Int.floor_le_floor hy12
  · exact Int.floor_lt.2 hy2

/-- C2 witness: a model box already inside the 1280×720 frame is published
within the claimed bounds. -/
theorem published_bounds_need_model_bounds_witness :
    0 ≤ (⟨10, 10, 50, 50, "person 0.90"⟩ : Detection).x1 ∧
      (⟨10, 10, 50, 50, "person 0.90"⟩ : Detection).x1 ≤
        (⟨10, 10, 50, 50, "person 0.90"⟩ : Detection).x2 ∧
      (⟨10, 10, 50, 50, "person 0.90"⟩ : Detection).x2 < 1280 ∧
      0 ≤ (⟨10, 10, 50, 50, "person 0.90"⟩ : Detection).y1 ∧
      (⟨10, 10, 50, 50, "person 0.90"⟩ : Detection).y1 ≤
        (⟨10, 10, 50, 50, "person 0.90"⟩ : Detection).y2 ∧
      (⟨10, 10, 50, 50, "person 0.90"⟩ : Detection).y2 < 720 :=
  published_bounds_need_model_bounds names0 CONF_THRES 1280 720
    [⟨10, 10, 50, 50, 0.9, 0⟩] (by with_unfolding_all decide)
    ⟨10, 10, 50, 50, "person 0.90"⟩ (by with_unfolding_all decide)

/-- C3 (code bug): the smoother compares only the FIRST whitespace token of
the labels, so the historical detection "baseball glove 0.85" blends into the
current "baseball bat 0.90" (both start with "baseball") although their class
labels differ: the smoothed box (12, 12, 22, 22) is the 0.2/0.8 blend of
(0,0,10,10) with the average of the glove and bat boxes. -/
theorem multiword_class_labels_blend :
    batDet.label ≠ gloveDet.label ∧
    firstToken batDet.label = firstToken gloveDet.label ∧
    (smooth_detections (smooth_detections mainSmoother [gloveDet]).2
        [batDet]).1 = [⟨12, 12, 22, 22, "baseball bat 0.90"⟩] := by
  with_unfolding_all decide

lemma similarDet_self (d : Detection) : similarDet d d = true := by
  simp [similarDet]

lemma filter_similar_single (D : List Detection)
    (hnd : D.Nodup)
    (hsim : ∀ a ∈ D, ∀ b ∈ D, similarDet a b = true → a = b)
    (d : Detection) (hd : d ∈ D) :
    D.filter (fun h => similarDet d h) = [d] := by
  induction D with
  | nil => cases hd
  | cons x t ih =>
    rcases List.mem_cons.1 hd with rfl | hdt
    · rw [List.filter_cons_of_pos (similarDet_self d)]
      have ht : t.filter (fun h => similarDet d h) = [] :=
        List.filter_eq_nil_iff.2 fun b hb hsb => by
          have hdb := hsim d (List.mem_cons_self _ _) b
            (List.mem_cons_of_mem _ hb) hsb
          exact (List.nodup_cons.1 hnd).1 (hdb ▸ hb)
      rw [ht]
    · have hxd : ¬ (similarDet d x = true) := fun hs => by
        have hdx := hsim d (List.mem_cons_of_mem _ hdt) x
          (List.mem_cons_self _ _) hs
        exact (List.nodup_cons.1 hnd).1 (hdx ▸ hdt)
      rw [List.filter_cons_of_neg hxd]
      exact ih (List.nodup_cons.1 hnd).2
        (fun a ha b hb => hsim a (List.mem_cons_of_mem _ ha) b
          (List.mem_cons_of_mem _ hb)) hdt

lemma flatten_replicate_singleton (k : ℕ) (d : α) :
    (List.replicate k [d]).flatten = List.replicate k d := by
  induction k with
  | zero => simp
  | succ k ih => simp [List.replicate_succ, ih]

lemma pyInt_blend_self (sf : ℚ) (x : ℤ) :
    pyInt ((x : ℚ) * (1 - sf) + (x : ℚ) * sf) = x := by
  have h : (x : ℚ) * (1 - sf) + (x : ℚ) * sf = (x : ℚ) := by ring
  rw [h, pyInt_intCast]

lemma smoothOne_replicate (sf : ℚ) (k : ℕ) (hk : 1 ≤ k) (D : List Detection)
    (d : Detection) (hfil : D.filter (fun x => similarDet d x) = [d]) :
    smoothOne sf (List.replicate k D) d = d := by
  have hkq : ((k : ℕ) : ℚ) ≠ 0 := Nat.cast_ne_zero.2 (by omega)
  have hdiv : ∀ z : ℤ, ((k : ℚ) * (z : ℚ)) / ((k : ℕ) : ℚ) = (z : ℚ) :=
    fun z => mul_div_cancel_left₀ _ hkq
  have hne : (List.replicate k d).isEmpty = false := by
    cases k with
    | zero => omega
    | succ k => simp [List.replicate_succ]
  simp only [smoothOne, List.map_replicate]
  rw [hfil, flatten_replicate_singleton]
  simp only [hne, Bool.false_eq_true, if_false, List.map_replicate,
    List.sum_replicate, List.length_replicate, nsmul_eq_mul, hdiv,
    pyInt_blend_self]

lemma drop_replicate (a : α) (m n : ℕ) :
    (List.replicate m a).drop n = List.replicate (m - n) a := by
  induction m generalizing n with
  | zero => simp
  | succ m ih =>
    cases n with
    | zero => simp
    | succ n => simp [List.replicate_succ, ih]

lemma pushBounded_replicate (D : List Detection) (n : ℕ) :
    pushBounded 5 (List.replicate (min n 5) D) D
      = List.replicate (min (n + 1) 5) D := by
  simp only [pushBounded]
  rw [← List.replicate_succ']
  rw [drop_replicate]
  simp only [List.length_replicate]
  congr 1
  omega

lemma iterSmooth_eq (D : List Detection) (n : ℕ) :
    iterSmooth D n =
      ⟨SMOOTHING_FACTOR, 5, List.replicate (min n 5) D⟩ := by
  induction n with
  | zero => rfl
  | succ n ih =>
    rw [iterSmooth, ih]
    simp only [smooth_detections]
    rw [pushBounded_replicate]
    split_ifs <;> rfl

/-- C4 (amended): under a constant detection stream `D` in which no two
distinct detections are "similar" to each other (same first label token and
within 50px in x1 and y1), every call of `smooth_detections` — from the very
first — returns `D` exactly: each detection's historical copies average back
to itself and the blend is the identity, with no drift at all.  (The original
claim, for arbitrary `D`, fails whenever `D` contains two mutually similar
detections; see the counterexample.) -/
theorem smoother_constant_stream_stable (D : List Detection)
    (hnd : D.Nodup)
    (hsim : ∀ a ∈ D, ∀ b ∈ D, similarDet a b = true → a = b)
    (n : ℕ) :
    (smooth_detections (iterSmooth D n) D).1 = D := by
  rw [iterSmooth_eq]
  simp only [smooth_detections]
  rw [pushBounded_replicate]
  split_ifs with hlen
  · rfl
  · have hk : 1 ≤ min (n + 1) 5 := by omega
    have hmap : ∀ d ∈ D,
        smoothOne SMOOTHING_FACTOR (List.replicate (min (n + 1) 5) D) d = d :=
      fun d hd => smoothOne_replicate _ _ hk D d
        (filter_similar_single D hnd hsim d hd)
    exact (List.map_congr_left hmap).trans (List.map_id D)

/-- C4 witness: a single-detection stream is returned unchanged by the fourth
call. -/
theorem smoother_constant_stream_stable_witness :
    (smooth_detections (iterSmooth stableDets 3) stableDets).1 = stableDets :=
  smoother_constant_stream_stable stableDets (by with_unfolding_all decide)
    (by with_unfolding_all decide) 3

/-- C4 counterexample: for the constant stream `driftDets` (two "person"
boxes 40px apart, hence mutually similar), the smoother state is already a
fixed point after 5 calls, and every later call keeps returning
[(16,0,26,10), (24,0,34,10)] — permanently different from the input, a drift
of 16px, far beyond integer rounding.  The claimed convergence to `D` never
happens. -/
theorem smoother_constant_stream_drift :
    iterSmooth driftDets 6 = iterSmooth driftDets 5 ∧
    (smooth_detections (iterSmooth driftDets 5) driftDets).1 ≠ driftDets ∧
    (smooth_detections (iterSmooth driftDets 5) driftDets).1
      = [⟨16, 0, 26, 10, "person 0.90"⟩, ⟨24, 0, 34, 10, "person 0.90"⟩] := by
  with_unfolding_all decide
